import Mathlib

/-!
Verification of `crates/rust-analyzer/src/test_runner.rs`.

The module under verification builds a `cargo test` / `cargo nextest` command,
spawns it, and decodes its newline-delimited output into `CargoTestMessage`
events delivered on a channel.  We embed:

* the JSON value model and the textual JSON parser that
  `serde_json::Deserializer::from_str` implements (with
  `disable_recursion_limit`, and with no end-of-input check because the source
  never calls `.end()`);
* the deserializer that `#[derive(Deserialize)]` generates for the internally
  tagged enums `CargoTestMessage` (tag `"type"`) and `TestState` (tag
  `"event"`, reached through `#[serde(flatten)]`);
* `CargoTestMessage::from_line` / `from_eof`;
* the command construction performed by `CargoTestHandle::new`.
-/

namespace TestRunner

/-- JSON values as parsed by `serde_json`.  Numbers only ever flow through the
decoder opaquely (no field of `CargoTestMessage` is numeric), so we keep the
numeric lexeme verbatim. -/
inductive Json where
  | null
  | bool (b : Bool)
  | num (lexeme : List Char)
  | str (s : String)
  | arr (elems : List Json)
  | obj (members : List (String × Json))

/-- JSON whitespace accepted between tokens. -/
def isJsonWs (c : Char) : Bool :=
  c = ' ' || c = '\t' || c = '\n' || c = '\r'

/-- Skip JSON whitespace. -/
def skipWs : List Char → List Char
  | [] => []
  | c :: cs => if isJsonWs c then skipWs cs else c :: cs

/-- Value of a hexadecimal digit. -/
def hexVal (c : Char) : Option Nat :=
  if '0' ≤ c ∧ c ≤ '9' then some (c.toNat - '0'.toNat)
  else if 'a' ≤ c ∧ c ≤ 'f' then some (c.toNat - 'a'.toNat + 10)
  else if 'A' ≤ c ∧ c ≤ 'F' then some (c.toNat - 'A'.toNat + 10)
  else none

/-- Parse the four hex digits of a `\uXXXX` escape. -/
def parseHex4 : List Char → Option (Nat × List Char)
  | a :: b :: c :: d :: rest =>
    match hexVal a, hexVal b, hexVal c, hexVal d with
    | some x, some y, some z, some w => some (((x * 16 + y) * 16 + z) * 16 + w, rest)
    | _, _, _, _ => none
  | _ => none

/-- Decode the hex digits of a `\uXXXX` escape (the characters after `\u`).
Surrogate pairs must be well formed, as in `serde_json`'s strict default:
a leading surrogate must be followed by `\uYYYY` with a trailing one, and a
lone trailing surrogate is an error. -/
def parseUnicodeEscape (cs : List Char) : Option (Char × List Char) :=
  match parseHex4 cs with
  | none => none
  | some (n, rest) =>
    if 0xD800 ≤ n ∧ n ≤ 0xDBFF then
      match rest with
      | '\\' :: 'u' :: rest' =>
        match parseHex4 rest' with
        | none => none
        | some (m, rest'') =>
          if 0xDC00 ≤ m ∧ m ≤ 0xDFFF then
            some (Char.ofNat (0x10000 + (n - 0xD800) * 0x400 + (m - 0xDC00)), rest'')
          else none
      | _ => none
    else if 0xDC00 ≤ n ∧ n ≤ 0xDFFF then none
    else some (Char.ofNat n, rest)

/-- Decode one string-escape sequence (the characters after a backslash). -/
def parseEscape : List Char → Option (Char × List Char)
  | [] => none
  | c :: rest =>
    if c = '"' then some ('"', rest)
    else if c = '\\' then some ('\\', rest)
    else if c = '/' then some ('/', rest)
    else if c = 'b' then some ('\x08', rest)
    else if c = 'f' then some ('\x0c', rest)
    else if c = 'n' then some ('\n', rest)
    else if c = 'r' then some ('\r', rest)
    else if c = 't' then some ('\t', rest)
    else if c = 'u' then parseUnicodeEscape rest
    else none

/-- Parse the body of a JSON string after the opening quote (fuelled: each
step consumes at least one character). -/
def parseStringBody (fuel : Nat) (cs : List Char) (acc : List Char) :
    Option (String × List Char) :=
  match fuel with
  | 0 => none
  | fuel + 1 =>
    match cs with
    | [] => none
    | c :: rest =>
      if c = '"' then some (String.mk acc.reverse, rest)
      else if c = '\\' then
        match parseEscape rest with
        | none => none
        | some (d, rest') => parseStringBody fuel rest' (d :: acc)
      else if c.toNat < 0x20 then none
      else parseStringBody fuel rest (c :: acc)

/-- Whether a character is an ASCII decimal digit. -/
def isDigit (c : Char) : Bool := '0' ≤ c && c ≤ '9'

/-- Take the longest digit prefix. -/
def takeDigits : List Char → List Char × List Char
  | [] => ([], [])
  | c :: cs =>
    if isDigit c then
      let (ds, rest) := takeDigits cs
      (c :: ds, rest)
    else ([], c :: cs)

/-- Parse the integer part of a number: `0`, or a nonzero digit followed by
digits (leading zeros are rejected, as in JSON). -/
def parseIntPart : List Char → Option (List Char × List Char)
  | [] => none
  | c :: cs =>
    if c = '0' then some ([c], cs)
    else if isDigit c then
      let (ds, rest) := takeDigits cs
      some (c :: ds, rest)
    else none

/-- Parse the optional fraction part `.digits`. -/
def parseFracPart : List Char → Option (List Char × List Char)
  | '.' :: cs =>
    match takeDigits cs with
    | ([], _) => none
    | (ds, rest) => some ('.' :: ds, rest)
  | cs => some ([], cs)

/-- Parse the optional exponent part `[eE][+-]?digits`. -/
def parseExpPart : List Char → Option (List Char × List Char)
  | c :: cs =>
    if c = 'e' ∨ c = 'E' then
      match cs with
      | s :: cs' =>
        if s = '+' ∨ s = '-' then
          match takeDigits cs' with
          | ([], _) => none
          | (ds, rest) => some (c :: s :: ds, rest)
        else
          match takeDigits cs with
          | ([], _) => none
          | (ds, rest) => some (c :: ds, rest)
      | [] => none
    else some ([], c :: cs)
  | [] => some ([], [])

/-- Parse a JSON number (returning its lexeme). -/
def parseNumber (cs : List Char) : Option (Json × List Char) :=
  let (sign, cs₁) :=
    match cs with
    | '-' :: rest => ([('-' : Char)], rest)
    | _ => ([], cs)
  match parseIntPart cs₁ with
  | none => none
  | some (ip, cs₂) =>
    match parseFracPart cs₂ with
    | none => none
    | some (fp, cs₃) =>
      match parseExpPart cs₃ with
      | none => none
      | some (ep, cs₄) => some (Json.num (sign ++ ip ++ fp ++ ep), cs₄)

/-- Whether `cs` starts with the given literal word, returning the rest. -/
def startsWithWord : List Char → List Char → Option (List Char)
  | [], cs => some cs
  | _, [] => none
  | w :: ws, c :: cs => if c = w then startsWithWord ws cs else none

mutual

/-- Parse one JSON value.  The fuel only bounds the recursion depth by the
input length; `serde_json`'s own recursion limit is disabled in the source
(`disable_recursion_limit`), so no artificial depth bound is modelled. -/
def parseValue (fuel : Nat) (cs : List Char) : Option (Json × List Char) :=
  match fuel with
  | 0 => none
  | fuel + 1 =>
    match skipWs cs with
    | [] => none
    | c :: rest =>
      if c = 'n' then
        (startsWithWord ['u', 'l', 'l'] rest).map (Json.null, ·)
      else if c = 't' then
        (startsWithWord ['r', 'u', 'e'] rest).map (Json.bool true, ·)
      else if c = 'f' then
        (startsWithWord ['a', 'l', 's', 'e'] rest).map (Json.bool false, ·)
      else if c = '"' then
        (parseStringBody (rest.length + 1) rest []).map fun (s, r) => (Json.str s, r)
      else if c = '[' then
        match skipWs rest with
        | ']' :: rest' => some (Json.arr [], rest')
        | rest' => (parseElems fuel rest').map fun (es, r) => (Json.arr es, r)
      else if c = '{' then
        match skipWs rest with
        | '}' :: rest' => some (Json.obj [], rest')
        | rest' => (parseMembers fuel rest').map fun (ms, r) => (Json.obj ms, r)
      else
        parseNumber (c :: rest)

/-- Parse the elements of a non-empty array (after `[`). -/
def parseElems (fuel : Nat) (cs : List Char) : Option (List Json × List Char) :=
  match fuel with
  | 0 => none
  | fuel + 1 =>
    match parseValue fuel cs with
    | none => none
    | some (v, rest) =>
      match skipWs rest with
      | ',' :: rest' =>
        (parseElems fuel rest').map fun (vs, r) => (v :: vs, r)
      | ']' :: rest' => some ([v], rest')
      | _ => none

/-- Parse the members of a non-empty object (after `{`). -/
def parseMembers (fuel : Nat) (cs : List Char) : Option (List (String × Json) × List Char) :=
  match fuel with
  | 0 => none
  | fuel + 1 =>
    match skipWs cs with
    | '"' :: rest =>
      match parseStringBody (rest.length + 1) rest [] with
      | none => none
      | some (k, rest') =>
        match skipWs rest' with
        | ':' :: rest'' =>
          match parseValue fuel rest'' with
          | none => none
          | some (v, rest''') =>
            match skipWs rest''' with
            | ',' :: r =>
              (parseMembers fuel r).map fun (ms, r') => ((k, v) :: ms, r')
            | '}' :: r => some ([(k, v)], r)
            | _ => none
        | _ => none
    | _ => none

end

/-- Parse one JSON value from the start of a line, returning the unconsumed
remainder.  The source never calls `.end()` on the deserializer, so trailing
input after the value is not inspected. -/
def parseJson (line : String) : Option (Json × List Char) :=
  parseValue (line.data.length + 1) line.data

/-! ### The event types of `test_runner.rs` -/

/-- Rust enum `TestState` (lines 16–27): internally tagged with `tag = "event"`,
`rename_all = "camelCase"`; `Failed.stdout` has `#[serde(default)]`. -/
inductive TestState where
  | started
  | ok
  | ignored
  | failed (stdout : String)
deriving Repr, DecidableEq

/-- Rust enum `CargoTestMessage` (lines 29–42): internally tagged with `tag = "type"`,
`rename_all = "camelCase"`; the `Test` variant carries `name` and a
`#[serde(flatten)]`ed `TestState`. -/
inductive CargoTestMessage where
  | test (name : String) (state : TestState)
  | suite
  | finished
  | custom (text : String)
deriving Repr, DecidableEq

/-! ### The deserializer generated by `#[derive(Deserialize)]`

Serde's internally tagged representation buffers the map's entries, extracts
the tag field (erroring when it is missing, not a string, or duplicated), and
deserializes the chosen variant from the remaining entries.  Struct variants
and structs error on a duplicated known field and ignore unknown fields
(`deny_unknown_fields` is not set); unit variants ignore all remaining
content.  `none` models a deserialization error. -/

/-- Extract an internally tagged enum's tag field from the buffered object
entries, returning the tag string and the remaining entries in order.
Errors when the tag is missing, its value is not a string, or the tag field
occurs twice. -/
def extractTag (tag : String) : List (String × Json) → Option (String × List (String × Json))
  | [] => none
  | (k, v) :: rest =>
    if k = tag then
      match v with
      | Json.str s =>
        if rest.any (fun kv => kv.fst = tag) then none else some (s, rest)
      | _ => none
    else
      (extractTag tag rest).map fun (s, rest') => (s, (k, v) :: rest')

/-- Look up a known string-typed struct field.  `some none` means the field
is absent, `some (some s)` that it is present with value `s`; `none` is an
error (non-string value or duplicated field). -/
def getStrField (name : String) : List (String × Json) → Option (Option String)
  | [] => some none
  | (k, v) :: rest =>
    if k = name then
      match v with
      | Json.str s =>
        if rest.any (fun kv => kv.fst = name) then none else some (some s)
      | _ => none
    else getStrField name rest

/-- Like `getStrField` for a required field, also returning the remaining
entries (the field is consumed, everything else is kept for `flatten`). -/
def takeStrField (name : String) : List (String × Json) → Option (String × List (String × Json))
  | [] => none
  | (k, v) :: rest =>
    if k = name then
      match v with
      | Json.str s =>
        if rest.any (fun kv => kv.fst = name) then none else some (s, rest)
      | _ => none
    else
      (takeStrField name rest).map fun (s, rest') => (s, (k, v) :: rest')

/-- The derived deserializer of `TestState`: internally tagged on `"event"`
with camelCase variant names; `failed` reads an optional `stdout` string
defaulting to `""`; the unit variants ignore any remaining content. -/
def decodeTestState (entries : List (String × Json)) : Option TestState :=
  match extractTag "event" entries with
  | none => none
  | some (tag, content) =>
    if tag = "started" then some TestState.started
    else if tag = "ok" then some TestState.ok
    else if tag = "ignored" then some TestState.ignored
    else if tag = "failed" then
      match getStrField "stdout" content with
      | none => none
      | some stdout => some (TestState.failed (stdout.getD ""))
    else none

/-- The derived deserializer of `CargoTestMessage`: the value must be an
object; the `"type"` tag selects the variant; `Test` reads `name` and feeds
the remaining entries to the flattened `TestState`; `Suite` and `Finished`
ignore remaining content; `Custom` reads a required `text` string. -/
def decodeCargoTestMessage (j : Json) : Option CargoTestMessage :=
  match j with
  | Json.obj entries =>
    match extractTag "type" entries with
    | none => none
    | some (tag, content) =>
      if tag = "test" then
        match takeStrField "name" content with
        | none => none
        | some (name, rest) =>
          (decodeTestState rest).map (CargoTestMessage.test name)
      else if tag = "suite" then some CargoTestMessage.suite
      else if tag = "finished" then some CargoTestMessage.finished
      else if tag = "custom" then
        match getStrField "text" content with
        | some (some text) => some (CargoTestMessage.custom text)
        | _ => none
      else none
  | _ => none

/-- Composition `serde_json::Deserializer::from_str(line)` followed by
`CargoTestMessage::deserialize` (lines 46–48): parse one JSON value (trailing
input is never checked — the source does not call `.end()`), then run the
derived deserializer. -/
def structuredDecode (line : String) : Option CargoTestMessage :=
  match parseJson line with
  | none => none
  | some (j, _) => decodeCargoTestMessage j

/-- Function `CargoTestMessage::from_line` (lines 45–53): if deserialization succeeds,
return the message; otherwise fall back to `Custom` carrying the raw line. -/
def from_line (line : String) : Option CargoTestMessage :=
  match structuredDecode line with
  | some message => some message
  | none => some (CargoTestMessage.custom line)

/-- Function `CargoTestMessage::from_eof` (lines 55–57). -/
def from_eof : Option CargoTestMessage :=
  some CargoTestMessage.finished

/-! ### Command construction (`CargoTestHandle::new`, lines 81–161) -/

/-- Modelled from the spec: `TargetKind` lives in the external
`project_model` crate, whose sources are not given.  Per the spec it is
`Library | Other | Named(string)`, the named kinds (binaries, examples,
benchmarks, …) displaying as the string used for their `--<kind>` flag. -/
inductive TargetKind where
  | lib
  | other
  | named (kind : String)
deriving Repr, DecidableEq

/-- Modelled from the spec: the display of a `TargetKind`, as interpolated by
`format!` in the source; only named kinds ever reach that interpolation. -/
def TargetKind.display : TargetKind → String
  | TargetKind.lib => "lib"
  | TargetKind.other => "other"
  | TargetKind.named k => k

/-- Modelled from the spec: `CargoOptions` (from the external flycheck
module) is an opaque pass-through option set.  `applyArgs` is what
`apply_on_command` appends verbatim, and `extra_test_bin_args` (a field the
source reads directly) holds extra arguments forwarded to the test binary
after the `--` separator. -/
structure CargoOptions where
  applyArgs : List String
  extra_test_bin_args : List String
deriving Repr, DecidableEq

/-- Rust enum `TestTarget` (lines 70–74). -/
inductive TestTarget where
  | workspace
  | package (package : String) (target : String) (kind : TargetKind)
deriving Repr, DecidableEq

/-- Rust enum `TestToolKind` (lines 76–79). -/
inductive TestToolKind where
  | cargoTest
  | cargoNextest
deriving Repr, DecidableEq

/-- A command under construction: program, working directory, argument
vector, and environment additions, mirroring `std::process::Command` as
driven through the `toolchain` helper. -/
structure Cmd where
  program : String
  workdir : String
  args : List String
  envs : List (String × String)
deriving Repr, DecidableEq

/-- Append one argument (`Command::arg`). -/
def Cmd.arg (cmd : Cmd) (a : String) : Cmd :=
  { cmd with args := cmd.args ++ [a] }

/-- Append several arguments (`Command::args`). -/
def Cmd.argsAppend (cmd : Cmd) (xs : List String) : Cmd :=
  { cmd with args := cmd.args ++ xs }

/-- Add one environment variable (`Command::env`). -/
def Cmd.env (cmd : Cmd) (k v : String) : Cmd :=
  { cmd with envs := cmd.envs ++ [(k, v)] }

/-- Modelled from the spec: `toolchain::command(Tool::Cargo.path(), root)`
creates a command for the resolved cargo binary with working directory
`root`, no arguments and no extra environment.  Binary path resolution is
external; we use the literal tool name. -/
def toolchainCommand (program : String) (root : String) : Cmd :=
  { program := program, workdir := root, args := [], envs := [] }

/-- Modelled from the spec: `CargoOptions::apply_on_command` applies the
caller-supplied option set verbatim to the built command. -/
def CargoOptions.apply_on_command (options : CargoOptions) (cmd : Cmd) : Cmd :=
  cmd.argsAppend options.applyArgs

/-- The command built by `CargoTestHandle::new` (lines 90–158), up to the
point where it is spawned, with every `cmd.arg`/`cmd.env` call in source
order. -/
def buildCommand (test_tool : TestToolKind) (path : Option String)
    (options : CargoOptions) (root : String) (test_target : TestTarget) : Cmd :=
  let cmd := toolchainCommand "cargo" root
  let cmd := cmd.env "RUSTC_BOOTSTRAP" "1"
  let cmd :=
    match test_tool with
    | TestToolKind.cargoTest =>
      let cmd := cmd.arg "test"
      match test_target with
      | TestTarget.package package target kind =>
        let cmd := cmd.arg "--package"
        let cmd := cmd.arg package
        match kind with
        | TargetKind.lib => cmd.arg "--lib"
          -- no name required because there can only be one lib target
        | TargetKind.other => cmd
          -- unsupported by cargo
        | TargetKind.named k => (cmd.arg ("--" ++ (TargetKind.named k).display)).arg target
      | TestTarget.workspace => cmd.arg "--workspace"
    | TestToolKind.cargoNextest =>
      let cmd := cmd.env "NEXTEST_EXPERIMENTAL_LIBTEST_JSON" "1"
      let cmd := cmd.arg "nextest"
      let cmd := cmd.arg "run"
      match path with
      | some dsl => (cmd.arg "-E").arg dsl
      | none => cmd
  -- --no-fail-fast is needed to ensure that all requested tests will run
  let cmd := cmd.arg "--no-fail-fast"
  let cmd := cmd.arg "--manifest-path"
  let cmd := cmd.arg (root ++ "/Cargo.toml")
  let cmd := options.apply_on_command cmd
  match test_tool with
  | TestToolKind.cargoTest =>
    let cmd := cmd.arg "--"
    let cmd :=
      match path with
      | some p => cmd.arg p
      | none => cmd
    let cmd := cmd.argsAppend ["-Z", "unstable-options"]
    let cmd := cmd.arg "--format=json"
    cmd.argsAppend options.extra_test_bin_args
  | TestToolKind.cargoNextest =>
    ((cmd.arg "--message-format").arg "libtest-json").arg "--"

/-- Modelled from the spec: the process-supervision collaborator
(`CommandHandle`) reads the process output line by line, invokes `from_line`
per line and `from_eof` at end of stream, and forwards each produced event,
in order, on the channel. -/
def runEvents (lines : List String) : List CargoTestMessage :=
  lines.filterMap from_line ++ from_eof.toList

/-- Spawn-time failure cases (spec §7, SpawnError). -/
inductive SpawnError where
  | notFound
  | permissionDenied
  | pipeSetupFailure
deriving Repr, DecidableEq

/-- Modelled from the spec: the outcome of `CommandHandle::spawn` for a given
command — either a spawn error, reported synchronously, or the stream of
output lines the spawned process produces. -/
def SpawnOutcome : Type :=
  Cmd → Except SpawnError (List String)

/-- Function `CargoTestHandle::new` (lines 81–161): build the command, then
spawn it; a spawn error propagates synchronously (the `?` operator on
`CommandHandle::spawn`) and, per the collaborator contract, no events are
delivered on the channel for that run.  The result pairs the start
operation's outcome (the built command standing in for the opaque handle)
with the events delivered on `sender`'s channel. -/
def CargoTestHandle.new (spawn : SpawnOutcome) (test_tool : TestToolKind)
    (path : Option String) (options : CargoOptions) (root : String)
    (test_target : TestTarget) :
    Except SpawnError Cmd × List CargoTestMessage :=
  let cmd := buildCommand test_tool path options root test_target
  match spawn cmd with
  | Except.error e => (Except.error e, [])
  | Except.ok lines => (Except.ok cmd, runEvents lines)

/-! ### A canonical wire encoder, used to state the round-trip property -/

/-- Lowercase hexadecimal digit, as `serde_json` uses in `\u00XX` escapes. -/
def hexDigitChar (n : Nat) : Char :=
  if n < 10 then Char.ofNat ('0'.toNat + n) else Char.ofNat ('a'.toNat + (n - 10))

/-- Escape one character as `serde_json` does inside a string literal:
quote, backslash and the named control escapes, remaining control
characters as `\u00XX`, everything else verbatim. -/
def escapeChar (c : Char) : List Char :=
  if c = '"' then ['\\', '"']
  else if c = '\\' then ['\\', '\\']
  else if c = '\x08' then ['\\', 'b']
  else if c = '\x0c' then ['\\', 'f']
  else if c = '\n' then ['\\', 'n']
  else if c = '\r' then ['\\', 'r']
  else if c = '\t' then ['\\', 't']
  else if c.toNat < 0x20 then
    ['\\', 'u', '0', '0', hexDigitChar (c.toNat / 16), hexDigitChar (c.toNat % 16)]
  else [c]

/-- Escape every character of a string body. -/
def escapeList : List Char → List Char
  | [] => []
  | c :: cs => escapeChar c ++ escapeList cs

/-- One `"key":"value"` member of an encoded object. -/
def encodeMember (k v : String) : List Char :=
  '"' :: (escapeList k.data ++ '"' :: ':' :: '"' :: (escapeList v.data ++ ['"']))

/-- Comma-separated members of an encoded object. -/
def encodeMembers : List (String × String) → List Char
  | [] => []
  | [(k, v)] => encodeMember k v
  | (k, v) :: kvs => encodeMember k v ++ ',' :: encodeMembers kvs

/-- The object fields each message carries on the wire, per the serde
attributes of the source (tag `"type"`, sub-tag `"event"`, camelCase). -/
def messageFields : CargoTestMessage → List (String × String)
  | CargoTestMessage.test name TestState.started =>
      [("type", "test"), ("event", "started"), ("name", name)]
  | CargoTestMessage.test name TestState.ok =>
      [("type", "test"), ("event", "ok"), ("name", name)]
  | CargoTestMessage.test name TestState.ignored =>
      [("type", "test"), ("event", "ignored"), ("name", name)]
  | CargoTestMessage.test name (TestState.failed stdout) =>
      [("type", "test"), ("event", "failed"), ("name", name), ("stdout", stdout)]
  | CargoTestMessage.suite => [("type", "suite")]
  | CargoTestMessage.finished => [("type", "finished")]
  | CargoTestMessage.custom text => [("type", "custom"), ("text", text)]

/-- A canonical wire line for a message: one JSON object per line. -/
def encodeMessage (msg : CargoTestMessage) : String :=
  String.mk ('\x7b' :: (encodeMembers (messageFields msg) ++ ['\x7d']))

/-- Modelled from the spec: the default option set applies no arguments
to the command (empty pass-through, no extra test-binary arguments). -/
def CargoOptions.default : CargoOptions :=
  { applyArgs := [], extra_test_bin_args := [] }

/-! ### Parser correctness on encoded lines -/

/-- Every escape produces at least one character. -/
theorem escapeChar_length_pos (c : Char) : 0 < (escapeChar c).length := by
  unfold escapeChar
  split_ifs <;> simp

/-- The lowercase hex digits used by the encoder decode back to their value. -/
theorem hexVal_hexDigitChar (n : Nat) (h : n < 16) :
    hexVal (hexDigitChar n) = some n := by
  interval_cases n <;> decide

/-- Unfolding step: a backslash followed by a decodable escape sequence. -/
theorem psb_escape_step (f : Nat) (cs tail acc : List Char) (c : Char)
    (hesc : parseEscape cs = some (c, tail)) :
    parseStringBody (f + 1) ('\\' :: cs) acc = parseStringBody f tail (c :: acc) := by
  simp [parseStringBody, hesc]

/-- Decoding the `\u00XX` escape the encoder emits for a control character
recovers that character. -/
theorem parseEscape_u_control (c : Char) (r : List Char) (h : c.toNat < 0x20) :
    parseEscape ('u' :: '0' :: '0' :: hexDigitChar (c.toNat / 16) ::
        hexDigitChar (c.toNat % 16) :: r) =
      some (c, r) := by
  have h1 : c.toNat / 16 < 16 := by omega
  have h2 : c.toNat % 16 < 16 := Nat.mod_lt _ (by norm_num)
  have h0 : hexVal '0' = some 0 := rfl
  have hx : parseHex4 ('0' :: '0' :: hexDigitChar (c.toNat / 16) ::
      hexDigitChar (c.toNat % 16) :: r) = some (c.toNat, r) := by
    simp only [parseHex4, h0, hexVal_hexDigitChar _ h1, hexVal_hexDigitChar _ h2]
    have heq : ((0 * 16 + 0) * 16 + c.toNat / 16) * 16 + c.toNat % 16 = c.toNat := by
      omega
    rw [heq]
  show parseUnicodeEscape ('0' :: '0' :: hexDigitChar (c.toNat / 16) ::
      hexDigitChar (c.toNat % 16) :: r) = some (c, r)
  rw [parseUnicodeEscape, hx]
  simp only
  rw [if_neg (by omega), if_neg (by omega), Char.ofNat_toNat]

/-- One escaped character consumes one parser iteration and pushes the
original character on the accumulator. -/
theorem parseStringBody_escapeChar (f : Nat) (c : Char) (r acc : List Char) :
    parseStringBody (f + 1) (escapeChar c ++ r) acc =
      parseStringBody f r (c :: acc) := by
  unfold escapeChar
  split_ifs with h1 h2 h3 h4 h5 h6 h7 h8
  · subst h1; exact psb_escape_step f _ r acc _ rfl
  · subst h2; exact psb_escape_step f _ r acc _ rfl
  · subst h3; exact psb_escape_step f _ r acc _ rfl
  · subst h4; exact psb_escape_step f _ r acc _ rfl
  · subst h5; exact psb_escape_step f _ r acc _ rfl
  · subst h6; exact psb_escape_step f _ r acc _ rfl
  · subst h7; exact psb_escape_step f _ r acc _ rfl
  · exact psb_escape_step f _ r acc _ (parseEscape_u_control c r h8)
  · show parseStringBody (f + 1) (c :: r) acc = parseStringBody f r (c :: acc)
    simp only [parseStringBody, if_neg h1, if_neg h2, if_neg h8]

/-- The string parser undoes the encoder's escaping up to the closing
quote. -/
theorem parseStringBody_escape (cs : List Char) :
    ∀ (fuel : Nat) (acc rest : List Char), (escapeList cs).length < fuel →
      parseStringBody fuel (escapeList cs ++ '"' :: rest) acc =
        some (String.mk (acc.reverse ++ cs), rest) := by
  induction cs with
  | nil =>
    intro fuel acc rest h
    simp only [escapeList, List.length_nil] at h
    obtain ⟨f, rfl⟩ : ∃ f, fuel = f + 1 := ⟨fuel - 1, by omega⟩
    simp [escapeList, parseStringBody]
  | cons c tl ih =>
    intro fuel acc rest h
    have hpos : 0 < (escapeChar c).length := escapeChar_length_pos c
    have hlen : (escapeChar c).length + (escapeList tl).length < fuel := by
      simpa [escapeList, List.length_append] using h
    obtain ⟨f, rfl⟩ : ∃ f, fuel = f + 1 := ⟨fuel - 1, by omega⟩
    calc parseStringBody (f + 1) (escapeList (c :: tl) ++ '"' :: rest) acc
        = parseStringBody (f + 1)
            (escapeChar c ++ (escapeList tl ++ '"' :: rest)) acc := by
          simp [escapeList, List.append_assoc]
      _ = parseStringBody f (escapeList tl ++ '"' :: rest) (c :: acc) :=
          parseStringBody_escapeChar f c _ acc
      _ = some (String.mk ((c :: acc).reverse ++ tl), rest) :=
          ih f (c :: acc) rest (by omega)
      _ = some (String.mk (acc.reverse ++ c :: tl), rest) := by
          simp [List.reverse_cons, List.append_assoc]

/-- Specialisation to a whole encoded string starting from an empty
accumulator. -/
theorem parseStringBody_escape_str (s : String) (fuel : Nat) (rest : List Char)
    (h : (escapeList s.data).length < fuel) :
    parseStringBody fuel (escapeList s.data ++ '"' :: rest) [] =
      some (s, rest) :=
  parseStringBody_escape s.data fuel [] rest h

/-- Skipping whitespace leaves a non-whitespace head untouched. -/
theorem skipWs_cons (c : Char) (cs : List Char) (h : isJsonWs c = false) :
    skipWs (c :: cs) = c :: cs := by
  simp [skipWs, h]

/-- Unfolding: a value starting with a quote is a string. -/
theorem parseValue_quote (f : Nat) (cs : List Char) :
    parseValue (f + 1) ('"' :: cs) =
      (parseStringBody (cs.length + 1) cs []).map fun p => (Json.str p.fst, p.snd) :=
  rfl

/-- Unfolding: an object whose first member starts right after the brace. -/
theorem parseValue_obj_quote (f : Nat) (cs : List Char) :
    parseValue (f + 1) ('\x7b' :: '"' :: cs) =
      (parseMembers f ('"' :: cs)).map fun p => (Json.obj p.fst, p.snd) :=
  rfl

/-- Unfolding of one member parse, for a members list starting with a
quote. -/
theorem parseMembers_unfold (f : Nat) (cs : List Char) :
    parseMembers (f + 1) ('"' :: cs) =
      match parseStringBody (cs.length + 1) cs [] with
      | none => none
      | some (k, rest') =>
        match skipWs rest' with
        | ':' :: rest'' =>
          match parseValue f rest'' with
          | none => none
          | some (v, rest''') =>
            match skipWs rest''' with
            | ',' :: r => (parseMembers f r).map fun p => ((k, v) :: p.fst, p.snd)
            | '\x7d' :: r => some ([(k, v)], r)
            | _ => none
        | _ => none :=
  rfl

/-- Fuel-free restatement: the exact fuel the value and member parsers pass
to the string parser is always sufficient for an encoded string. -/
theorem parseStringBody_escape_len (s : String) (rest : List Char) :
    parseStringBody ((escapeList s.data ++ '"' :: rest).length + 1)
        (escapeList s.data ++ '"' :: rest) [] = some (s, rest) :=
  parseStringBody_escape_str s _ rest
    (by simp only [List.length_append, List.length_cons]; omega)

/-- Parsing one encoded member consumes it and continues at the following
separator. -/
theorem parseMembers_step (f : Nat) (k v : String) (X : List Char) :
    parseMembers (f + 2) (encodeMember k v ++ X) =
      match skipWs X with
      | ',' :: r => (parseMembers (f + 1) r).map fun p => ((k, Json.str v) :: p.fst, p.snd)
      | '\x7d' :: r => some ([(k, Json.str v)], r)
      | _ => none := by
  have hshape : encodeMember k v ++ X =
      '"' :: (escapeList k.data ++ '"' :: ':' :: '"' :: (escapeList v.data ++ '"' :: X)) := by
    simp [encodeMember, List.append_assoc]
  have hsk : skipWs (':' :: '"' :: (escapeList v.data ++ '"' :: X)) =
      ':' :: '"' :: (escapeList v.data ++ '"' :: X) :=
    skipWs_cons _ _ (by decide)
  rw [hshape, parseMembers_unfold (f + 1)]
  simp only [parseStringBody_escape_len, hsk, parseValue_quote, Option.map_some']

/-- A nonempty encoded members list starts with a quote. -/
theorem encodeMembers_cons_head (kvs : List (String × String)) (h : kvs ≠ []) :
    ∃ t, encodeMembers kvs = '"' :: t := by
  match kvs with
  | [(k, v)] => exact ⟨_, rfl⟩
  | (k, v) :: (k2, v2) :: tl => exact ⟨_, rfl⟩

/-- Each member contributes at least one character to the encoding. -/
theorem length_le_encodeMembers (kvs : List (String × String)) :
    kvs.length ≤ (encodeMembers kvs).length := by
  induction kvs with
  | nil => simp [encodeMembers]
  | cons hd tl ih =>
    obtain ⟨k, v⟩ := hd
    cases tl with
    | nil => simp [encodeMembers, encodeMember]
    | cons hd2 tl2 =>
      obtain ⟨k2, v2⟩ := hd2
      simp only [encodeMembers, encodeMember, List.length_append,
        List.length_cons] at *
      omega

/-- The member parser decodes an encoded members list back to the
corresponding string-valued object entries. -/
theorem parseMembers_encode (kvs : List (String × String)) :
    ∀ (fuel : Nat) (rest : List Char), kvs ≠ [] → kvs.length < fuel →
      parseMembers fuel (encodeMembers kvs ++ '\x7d' :: rest) =
        some (kvs.map fun kv => (kv.fst, Json.str kv.snd), rest) := by
  induction kvs with
  | nil => intro fuel rest hne _; exact absurd rfl hne
  | cons hd tl ih =>
    obtain ⟨k, v⟩ := hd
    intro fuel rest _ hlt
    cases tl with
    | nil =>
      obtain ⟨f, rfl⟩ : ∃ f, fuel = f + 2 := ⟨fuel - 2, by simp at hlt; omega⟩
      show parseMembers (f + 2) (encodeMember k v ++ '\x7d' :: rest) = _
      rw [parseMembers_step f k v ('\x7d' :: rest)]
      rfl
    | cons hd2 tl2 =>
      obtain ⟨f, rfl⟩ : ∃ f, fuel = f + 2 := ⟨fuel - 2, by simp at hlt; omega⟩
      have hrec := ih (f + 1) rest (by simp) (by simp at hlt ⊢; omega)
      have hshape : encodeMembers ((k, v) :: hd2 :: tl2) ++ '\x7d' :: rest =
          encodeMember k v ++ ',' :: (encodeMembers (hd2 :: tl2) ++ '\x7d' :: rest) := by
        simp [encodeMembers, List.append_assoc]
      have hsk : skipWs (',' :: (encodeMembers (hd2 :: tl2) ++ '\x7d' :: rest)) =
          ',' :: (encodeMembers (hd2 :: tl2) ++ '\x7d' :: rest) :=
        skipWs_cons _ _ (by decide)
      rw [hshape, parseMembers_step f k v]
      simp only [hsk, hrec, Option.map_some']
      rfl

/-- Unfolding: a brace followed by a non-brace, non-whitespace members list
parses as an object via the member parser. -/
theorem parseValue_obj (f : Nat) (cs : List Char) (hws : skipWs cs = cs)
    (hbr : ∀ tl, cs ≠ '\x7d' :: tl) :
    parseValue (f + 1) ('\x7b' :: cs) =
      (parseMembers f cs).map fun p => (Json.obj p.fst, p.snd) := by
  have h0 : parseValue (f + 1) ('\x7b' :: cs) =
      match skipWs cs with
      | '\x7d' :: rest' => some (Json.obj [], rest')
      | rest' => (parseMembers f rest').map fun p => (Json.obj p.fst, p.snd) := rfl
  rw [h0, hws]
  split
  · rename_i rest' heq
    exact absurd rfl (hbr heq)
  · rfl

/-- The JSON parser decodes an encoded object line into exactly the
string-valued entries, with nothing left over. -/
theorem parseJson_encodeObj (kvs : List (String × String)) (hne : kvs ≠ []) :
    parseJson (String.mk ('\x7b' :: (encodeMembers kvs ++ ['\x7d']))) =
      some (Json.obj (kvs.map fun kv => (kv.fst, Json.str kv.snd)), []) := by
  obtain ⟨t, ht⟩ := encodeMembers_cons_head kvs hne
  have hlt : kvs.length < (encodeMembers kvs).length + 2 := by
    have := length_le_encodeMembers kvs
    omega
  have hmem := parseMembers_encode kvs ((encodeMembers kvs).length + 2) [] hne hlt
  have hws : skipWs (encodeMembers kvs ++ ['\x7d']) = encodeMembers kvs ++ ['\x7d'] := by
    rw [ht]
    exact skipWs_cons _ _ (by decide)
  have hbr : ∀ tl, encodeMembers kvs ++ ['\x7d'] ≠ '\x7d' :: tl := by
    intro tl h
    rw [ht] at h
    simp [List.cons_append] at h
  unfold parseJson
  have hdata : (String.mk ('\x7b' :: (encodeMembers kvs ++ ['\x7d']))).data =
      '\x7b' :: (encodeMembers kvs ++ ['\x7d']) := rfl
  rw [hdata]
  have hlen : ('\x7b' :: (encodeMembers kvs ++ ['\x7d'])).length + 1 =
      ((encodeMembers kvs).length + 2) + 1 := by
    simp [List.length_append]
  rw [hlen, parseValue_obj ((encodeMembers kvs).length + 2) _ hws hbr, hmem]
  rfl

/-- Helper for C10: a field absent from the buffered entries is reported as
absent (`some none`) by the struct-field lookup, never as an error. -/
theorem getStrField_of_absent (name : String) (entries : List (String × Json))
    (h : ∀ kv ∈ entries, kv.fst ≠ name) :
    getStrField name entries = some none := by
  induction entries with
  | nil => rfl
  | cons kv rest ih =>
    have hk : kv.fst ≠ name := h kv (List.mem_cons_self kv rest)
    obtain ⟨k, v⟩ := kv
    simp only [getStrField, if_neg hk]
    exact ih fun kv' hm => h kv' (List.mem_cons_of_mem _ hm)

/-- C1: for every input line (including the empty line) `from_line` returns
exactly one event — it is never `none` — and whenever structured decode of
the line fails for any reason the result is `Custom` carrying the raw line
verbatim. -/
theorem c1_from_line_total (line : String) :
    (from_line line).isSome = true ∧
      (structuredDecode line = none →
        from_line line = some (CargoTestMessage.custom line)) := by
  unfold from_line
  cases h : structuredDecode line <;> simp

/-- C1 witness: a plain human-readable line is downgraded to `Custom`. -/
theorem c1_witness :
    (from_line "running 3 tests").isSome = true ∧
      from_line "running 3 tests" = some (CargoTestMessage.custom "running 3 tests") :=
  ⟨(c1_from_line_total "running 3 tests").1,
    (c1_from_line_total "running 3 tests").2 (by rfl)⟩

/-- C3 counterexample: the well-formed line with discriminant `"custom"` is
not treated as opaque text — the `Custom` variant is itself deserializable,
so the parser returns the encoded `text` field `"x"`, not the raw line. -/
theorem c3_counterexample :
    from_line "\x7b\"type\":\"custom\",\"text\":\"x\"\x7d" =
        some (CargoTestMessage.custom "x") ∧
      from_line "\x7b\"type\":\"custom\",\"text\":\"x\"\x7d" ≠
        some (CargoTestMessage.custom "\x7b\"type\":\"custom\",\"text\":\"x\"\x7d") := by
  constructor
  · rfl
  · decide

/-- C3 (amended): a line whose `type` discriminant is none of the four
deserializable variant tags `test`/`suite`/`finished`/`custom` yields
`Custom\x7btext: line\x7d` with the entire raw line; a line with discriminant
`custom` instead decodes as the `Custom` variant carrying its encoded `text`
field. -/
theorem c3_unknown_discriminant :
    (∀ (line : String) (entries : List (String × Json)) (rest : List Char)
        (tag : String) (content : List (String × Json)),
      parseJson line = some (Json.obj entries, rest) →
      extractTag "type" entries = some (tag, content) →
      tag ≠ "test" → tag ≠ "suite" → tag ≠ "finished" → tag ≠ "custom" →
      from_line line = some (CargoTestMessage.custom line)) ∧
    (∀ (line : String) (entries : List (String × Json)) (rest : List Char)
        (content : List (String × Json)) (text : String),
      parseJson line = some (Json.obj entries, rest) →
      extractTag "type" entries = some ("custom", content) →
      getStrField "text" content = some (some text) →
      from_line line = some (CargoTestMessage.custom text)) := by
  constructor
  · intro line entries rest tag content hparse htag h1 h2 h3 h4
    simp [from_line, structuredDecode, decodeCargoTestMessage, hparse, htag,
      h1, h2, h3, h4]
  · intro line entries rest content text hparse htag htext
    simp [from_line, structuredDecode, decodeCargoTestMessage, hparse, htag,
      htext]

/-- C3 witness: an unknown discriminant falls back to the raw line, and the
`custom` discriminant decodes to its own `text` field. -/
theorem c3_witness :
    from_line "\x7b\"type\":\"bogus\"\x7d" =
        some (CargoTestMessage.custom "\x7b\"type\":\"bogus\"\x7d") ∧
      from_line "\x7b\"type\":\"custom\",\"text\":\"y\"\x7d" =
        some (CargoTestMessage.custom "y") :=
  ⟨c3_unknown_discriminant.1 "\x7b\"type\":\"bogus\"\x7d"
      [("type", Json.str "bogus")] [] "bogus" [] (by rfl) (by rfl)
      (by decide) (by decide) (by decide) (by decide),
    c3_unknown_discriminant.2 "\x7b\"type\":\"custom\",\"text\":\"y\"\x7d"
      [("type", Json.str "custom"), ("text", Json.str "y")] []
      [("text", Json.str "y")] "y" (by rfl) (by rfl) (by rfl)⟩

/-- C4: `from_eof` unconditionally returns the `Finished` event, and hence
the event sequence of every completed run — whatever its lines were — ends
with `Finished`. -/
theorem c4_from_eof_finished :
    from_eof = some CargoTestMessage.finished ∧
      ∀ lines : List String,
        (runEvents lines).getLast? = some CargoTestMessage.finished := by
  refine ⟨rfl, fun lines => ?_⟩
  unfold runEvents from_eof
  simp

/-- C5: for every `Package` scope built for the primary (`cargo test`)
backend, the arguments after the `--package <package>` selector are:
`--lib` and no target name for a library target; nothing for an `Other`
target; and `--<kind>` immediately followed by the target name for any
other explicitly-named kind. -/
theorem c5_package_kind_args (path : Option String) (options : CargoOptions)
    (root package target : String) (kind : TargetKind) :
    (buildCommand TestToolKind.cargoTest path options root
        (TestTarget.package package target kind)).args =
      ["test", "--package", package] ++
        (match kind with
          | TargetKind.lib => ["--lib"]
          | TargetKind.other => []
          | TargetKind.named k => ["--" ++ k, target]) ++
        ["--no-fail-fast", "--manifest-path", root ++ "/Cargo.toml"] ++
        options.applyArgs ++ ["--"] ++ path.toList ++
        ["-Z", "unstable-options", "--format=json"] ++
        options.extra_test_bin_args := by
  cases kind <;> cases path <;>
    simp [buildCommand, toolchainCommand, Cmd.arg, Cmd.argsAppend, Cmd.env,
      CargoOptions.apply_on_command, TargetKind.display]

/-- C6: the primary backend with `Workspace` scope, no filter and default
options builds exactly `test --workspace --no-fail-fast --manifest-path
<root>/Cargo.toml -- -Z unstable-options --format=json`; in particular no
filter token occurs anywhere in the vector. -/
theorem c6_workspace_default_args (root : String) :
    (buildCommand TestToolKind.cargoTest none CargoOptions.default root
        TestTarget.workspace).args =
      ["test", "--workspace", "--no-fail-fast", "--manifest-path",
        root ++ "/Cargo.toml", "--", "-Z", "unstable-options",
        "--format=json"] := by
  rfl

/-- C7: the alternate (`cargo nextest`) backend sets the experimental
structured-output environment flag, emits `nextest run`, passes a supplied
filter through `-E` (omitting the flag when there is none), and ends the
vector with `--message-format libtest-json` followed by a trailing `--`. -/
theorem c7_nextest_args (path : Option String) (options : CargoOptions)
    (root : String) (test_target : TestTarget) :
    ("NEXTEST_EXPERIMENTAL_LIBTEST_JSON", "1") ∈
        (buildCommand TestToolKind.cargoNextest path options root test_target).envs ∧
      (buildCommand TestToolKind.cargoNextest path options root test_target).args =
        ["nextest", "run"] ++
          (match path with | some dsl => ["-E", dsl] | none => []) ++
          ["--no-fail-fast", "--manifest-path", root ++ "/Cargo.toml"] ++
          options.applyArgs ++
          ["--message-format", "libtest-json", "--"] := by
  cases path <;>
    simp [buildCommand, toolchainCommand, Cmd.arg, Cmd.argsAppend, Cmd.env,
      CargoOptions.apply_on_command]

/-- C8: command construction is deterministic — for every backend kind,
filter, option set, project root and test scope, two invocations of the
builder with identical inputs produce the identical command (argument
vector and environment additions alike). -/
theorem c8_deterministic (test_tool : TestToolKind) (path : Option String)
    (options : CargoOptions) (root : String) (test_target : TestTarget) :
    buildCommand test_tool path options root test_target =
      buildCommand test_tool path options root test_target :=
  rfl

/-- C9: when spawning the built command fails, `CargoTestHandle::new`
returns that error synchronously as the result of the start operation, and
no events for that run are delivered on the caller's channel. -/
theorem c9_spawn_error_sync (spawn : SpawnOutcome) (test_tool : TestToolKind)
    (path : Option String) (options : CargoOptions) (root : String)
    (test_target : TestTarget) (e : SpawnError)
    (h : spawn (buildCommand test_tool path options root test_target) =
      Except.error e) :
    CargoTestHandle.new spawn test_tool path options root test_target =
      (Except.error e, []) := by
  simp only [CargoTestHandle.new, h]

/-- C9 witness: a concrete run whose spawn fails with `notFound` yields the
error synchronously and an empty event list. -/
theorem c9_witness :
    CargoTestHandle.new (fun _ => Except.error SpawnError.notFound)
        TestToolKind.cargoTest none CargoOptions.default "/proj"
        TestTarget.workspace =
      (Except.error SpawnError.notFound, []) :=
  c9_spawn_error_sync (fun _ => Except.error SpawnError.notFound)
    TestToolKind.cargoTest none CargoOptions.default "/proj"
    TestTarget.workspace SpawnError.notFound rfl

/-- C10: a `test` message with event `failed` whose `stdout` field is
absent deserializes successfully to `Failed` with `stdout = ""` (the serde
`default`), as the concrete line without a `stdout` member confirms. -/
theorem c10_stdout_defaults :
    (∀ (entries : List (String × Json)) (content : List (String × Json)),
      extractTag "event" entries = some ("failed", content) →
      (∀ kv ∈ content, kv.fst ≠ "stdout") →
      decodeTestState entries = some (TestState.failed "")) ∧
    from_line "\x7b\"type\":\"test\",\"event\":\"failed\",\"name\":\"n\"\x7d" =
      some (CargoTestMessage.test "n" (TestState.failed "")) := by
  constructor
  · intro entries content htag habsent
    simp [decodeTestState, htag, getStrField_of_absent "stdout" content habsent]
  · rfl

/-- C10 witness: a concrete buffered content without a `stdout` member
decodes to `Failed ""`. -/
theorem c10_witness :
    decodeTestState [("event", Json.str "failed"), ("name", Json.str "n")] =
      some (TestState.failed "") :=
  c10_stdout_defaults.1 [("event", Json.str "failed"), ("name", Json.str "n")]
    [("name", Json.str "n")] (by rfl) (by decide)

/-- C2: every message encoded on the wire in one of the known shapes decodes
back to exactly that message (round-trip); whatever structured decode
succeeds on is returned unchanged by `from_line`; and in particular the
failed-test scenario line decodes to `Test` with state `Failed "panic!"`. -/
theorem c2_structured_roundtrip :
    (∀ msg : CargoTestMessage, from_line (encodeMessage msg) = some msg) ∧
    (∀ (line : String) (msg : CargoTestMessage),
      structuredDecode line = some msg → from_line line = some msg) ∧
    from_line
        "\x7b\"type\":\"test\",\"event\":\"failed\",\"name\":\"mod::f\",\"stdout\":\"panic!\"\x7d" =
      some (CargoTestMessage.test "mod::f" (TestState.failed "panic!")) := by
  refine ⟨?_, ?_, by rfl⟩
  · intro msg
    have hne : messageFields msg ≠ [] := by
      cases msg with
      | test name state => cases state <;> simp [messageFields]
      | suite => simp [messageFields]
      | finished => simp [messageFields]
      | custom text => simp [messageFields]
    have hobj := parseJson_encodeObj (messageFields msg) hne
    unfold from_line structuredDecode encodeMessage
    rw [hobj]
    cases msg with
    | test name state => cases state <;> rfl
    | suite => rfl
    | finished => rfl
    | custom text => rfl
  · intro line msg h
    unfold from_line
    rw [h]

/-- C2 witness: the suite line decodes to `Suite` via the general part. -/
theorem c2_witness :
    from_line "\x7b\"type\":\"suite\"\x7d" = some CargoTestMessage.suite :=
  c2_structured_roundtrip.2.1 "\x7b\"type\":\"suite\"\x7d"
    CargoTestMessage.suite (by rfl)

end TestRunner
